import Mathlib

/-!
Verification of the SSE transport (client-sse.ts, server-sse.ts) of the
sse-simplified repository against its natural-language specification.

The development shallowly embeds:
  - the JSON value domain with the serialization and parsing used on the
    wire (JSON.stringify / JSON.parse), numbers modelled as integers;
  - the JSON-RPC message schema (types.ts is not present under src, so the
    validator is modelled from the specification);
  - the client transport state machine (SseClient) and the server
    transport state machine (SseServer), with callback invocations and
    HTTP/stream writes recorded as explicit event traces.
-/

mutual

/-- JSON values as produced by JSON.parse: null, booleans, numbers
(modelled as integers; the transport never computes with them), strings,
arrays and objects.  Arrays and objects use mutually inductive list types
so that mutual structural induction is available. -/
inductive Json where
  | null : Json
  | bool (b : Bool) : Json
  | num (n : Int) : Json
  | str (s : String) : Json
  | arr (xs : JsonList) : Json
  | obj (fs : JsonFields) : Json

/-- Lists of JSON values, for array payloads. -/
inductive JsonList where
  | nil : JsonList
  | cons (hd : Json) (tl : JsonList) : JsonList

/-- Key-value member lists, for object payloads. -/
inductive JsonFields where
  | nil : JsonFields
  | cons (key : String) (val : Json) (tl : JsonFields) : JsonFields

end

deriving instance DecidableEq for Json, JsonList, JsonFields

/-- The decimal digit character for a value below ten. -/
def digitChar (d : Nat) : Char := Char.ofNat (48 + d)

/-- Fuel-indexed digit emitter: prepends the decimal digits of `n` to
`acc`, taking one digit per fuel step (any fuel above `n` suffices). -/
def natCharsAux : Nat → Nat → List Char → List Char
  | 0, _, acc => acc
  | fuel + 1, n, acc =>
    if n < 10 then digitChar n :: acc
    else natCharsAux fuel (n / 10) (digitChar (n % 10) :: acc)

/-- Decimal digits of a natural number, most significant first
(the digit form JSON.stringify emits for a non-negative integer). -/
def natChars (n : Nat) : List Char := natCharsAux (n + 1) n []

/-- Decimal character form of an integer, as JSON.stringify emits it. -/
def intChars : Int → List Char
  | .ofNat m => natChars m
  | .negSucc m => '-' :: natChars (m + 1)

/-- Lower-case hexadecimal digit character for a value below sixteen. -/
def hexDigit (d : Nat) : Char := if d < 10 then digitChar d else Char.ofNat (87 + d)

/-- JSON string escaping of one character, following JSON.stringify:
quote and backslash are backslash-escaped, the named control characters
use their short escapes, other control characters use a \u00XX escape,
and everything else is emitted verbatim. -/
def escChar (c : Char) : List Char :=
  if c = '"' then ['\\', '"']
  else if c = '\\' then ['\\', '\\']
  else if c = '\n' then ['\\', 'n']
  else if c = '\r' then ['\\', 'r']
  else if c = '\t' then ['\\', 't']
  else if c = '\x08' then ['\\', 'b']
  else if c = '\x0c' then ['\\', 'f']
  else if c.toNat < 32 then ['\\', 'u', '0', '0', hexDigit (c.toNat / 16), hexDigit (c.toNat % 16)]
  else [c]

/-- JSON string escaping of a character list. -/
def escChars (l : List Char) : List Char := l.flatMap escChar

/-- A JSON string literal: opening quote, escaped body, closing quote. -/
def strChars (s : String) : List Char := '"' :: (escChars s.data ++ ['"'])

mutual

/-- Serialization of a JSON value to characters, as JSON.stringify
produces it (no whitespace). -/
def serV : Json → List Char
  | .null => "null".data
  | .bool true => "true".data
  | .bool false => "false".data
  | .num n => intChars n
  | .str s => strChars s
  | .arr xs => '[' :: (serL xs ++ [']'])
  | .obj fs => '{' :: (serF fs ++ ['}'])

/-- Serialization of the comma-separated elements of an array. -/
def serL : JsonList → List Char
  | .nil => []
  | .cons x tl => serV x ++ serLTail tl

/-- Serialization of the second and later array elements, each preceded
by its separating comma. -/
def serLTail : JsonList → List Char
  | .nil => []
  | .cons x tl => ',' :: (serV x ++ serLTail tl)

/-- Serialization of the comma-separated members of an object. -/
def serF : JsonFields → List Char
  | .nil => []
  | .cons k v tl => strChars k ++ ':' :: (serV v ++ serFTail tl)

/-- Serialization of the second and later object members, each preceded
by its separating comma. -/
def serFTail : JsonFields → List Char
  | .nil => []
  | .cons k v tl => ',' :: (strChars k ++ ':' :: (serV v ++ serFTail tl))

end

/-- JSON.stringify on the modelled JSON domain. -/
def Json.serialize (j : Json) : String := ⟨serV j⟩

/-- Consume a run of decimal digit characters, accumulating their value. -/
def parseNat (acc : Nat) : List Char → Nat × List Char
  | [] => (acc, [])
  | c :: cs => if c.isDigit then parseNat (acc * 10 + (c.toNat - 48)) cs else (acc, c :: cs)

/-- Parse a JSON integer literal (optional minus sign, then digits). -/
def parseNumber : List Char → Option (Json × List Char)
  | [] => none
  | c :: cs =>
    if c = '-' then
      match cs with
      | [] => none
      | d :: cs2 =>
        if d.isDigit then
          let p := parseNat (d.toNat - 48) cs2
          some (.num (-(p.1 : Int)), p.2)
        else none
    else if c.isDigit then
      let p := parseNat (c.toNat - 48) cs
      some (.num (p.1 : Int), p.2)
    else none

/-- Value of a hexadecimal digit character. -/
def hexVal (c : Char) : Option Nat :=
  if '0' ≤ c ∧ c ≤ '9' then some (c.toNat - 48)
  else if 'a' ≤ c ∧ c ≤ 'f' then some (c.toNat - 87)
  else if 'A' ≤ c ∧ c ≤ 'F' then some (c.toNat - 55)
  else none

/-- Parse the body of a JSON string literal after its opening quote, up to
and through its closing quote, undoing the escapes of `escChar`. -/
def parseStrChars : List Char → Option (List Char × List Char)
  | [] => none
  | c :: cs =>
    if c = '"' then some ([], cs)
    else if c = '\\' then
      match cs with
      | [] => none
      | e :: cs2 =>
        if e = '"' then (parseStrChars cs2).map (fun p => ('"' :: p.1, p.2))
        else if e = '\\' then (parseStrChars cs2).map (fun p => ('\\' :: p.1, p.2))
        else if e = '/' then (parseStrChars cs2).map (fun p => ('/' :: p.1, p.2))
        else if e = 'n' then (parseStrChars cs2).map (fun p => ('\n' :: p.1, p.2))
        else if e = 'r' then (parseStrChars cs2).map (fun p => ('\r' :: p.1, p.2))
        else if e = 't' then (parseStrChars cs2).map (fun p => ('\t' :: p.1, p.2))
        else if e = 'b' then (parseStrChars cs2).map (fun p => ('\x08' :: p.1, p.2))
        else if e = 'f' then (parseStrChars cs2).map (fun p => ('\x0c' :: p.1, p.2))
        else if e = 'u' then
          match cs2 with
          | h1 :: h2 :: h3 :: h4 :: cs3 =>
            match hexVal h1, hexVal h2, hexVal h3, hexVal h4 with
            | some a, some b, some c2, some d =>
              (parseStrChars cs3).map
                (fun p => (Char.ofNat (a * 4096 + b * 256 + c2 * 16 + d) :: p.1, p.2))
            | _, _, _, _ => none
          | _ => none
        else none
    else (parseStrChars cs).map (fun p => (c :: p.1, p.2))

mutual

/-- Fuel-indexed parser for one JSON value, inverse to `serV` on its
output; the fuel bounds the nesting of recursive values. -/
def parseValue : Nat → List Char → Option (Json × List Char)
  | 0, _ => none
  | _ + 1, [] => none
  | fuel + 1, c :: cs =>
    if c = 'n' then
      match cs with
      | 'u' :: 'l' :: 'l' :: rest => some (.null, rest)
      | _ => none
    else if c = 't' then
      match cs with
      | 'r' :: 'u' :: 'e' :: rest => some (.bool true, rest)
      | _ => none
    else if c = 'f' then
      match cs with
      | 'a' :: 'l' :: 's' :: 'e' :: rest => some (.bool false, rest)
      | _ => none
    else if c = '"' then
      (parseStrChars cs).map (fun p => (.str ⟨p.1⟩, p.2))
    else if c = '[' then
      match cs with
      | [] => none
      | c2 :: cs2 =>
        if c2 = ']' then some (.arr .nil, cs2)
        else (parseElems fuel (c2 :: cs2)).map (fun p => (.arr p.1, p.2))
    else if c = '{' then
      match cs with
      | [] => none
      | c2 :: cs2 =>
        if c2 = '}' then some (.obj .nil, cs2)
        else (parseFields fuel (c2 :: cs2)).map (fun p => (.obj p.1, p.2))
    else parseNumber (c :: cs)

/-- Parse the comma-separated elements of a non-empty array, through the
closing bracket. -/
def parseElems : Nat → List Char → Option (JsonList × List Char)
  | 0, _ => none
  | fuel + 1, cs =>
    match parseValue fuel cs with
    | none => none
    | some (v, rest) =>
      match rest with
      | ',' :: rest2 =>
        match parseElems fuel rest2 with
        | none => none
        | some (tl, rest3) => some (.cons v tl, rest3)
      | ']' :: rest2 => some (.cons v .nil, rest2)
      | _ => none

/-- Parse the comma-separated members of a non-empty object, through the
closing brace. -/
def parseFields : Nat → List Char → Option (JsonFields × List Char)
  | 0, _ => none
  | fuel + 1, cs =>
    match cs with
    | '"' :: cs1 =>
      match parseStrChars cs1 with
      | none => none
      | some (k, cs2) =>
        match cs2 with
        | ':' :: cs3 =>
          match parseValue fuel cs3 with
          | none => none
          | some (v, cs4) =>
            match cs4 with
            | ',' :: cs5 =>
              match parseFields fuel cs5 with
              | none => none
              | some (tl, cs6) => some (.cons ⟨k⟩ v tl, cs6)
            | '}' :: cs5 => some (.cons ⟨k⟩ v .nil, cs5)
            | _ => none
        | _ => none
    | _ => none

end

/-- JSON.parse on the modelled JSON domain: the whole string must be one
JSON value (the serializer emits no surrounding whitespace). -/
def Json.parse (s : String) : Option Json :=
  match parseValue s.data.length s.data with
  | some (j, []) => some j
  | _ => none

/-- Digit characters are decimal digits with the expected code point, and
are distinct from the minus sign. -/
theorem digitChar_spec : ∀ d, d < 10 →
    (digitChar d).isDigit = true ∧ (digitChar d).toNat = 48 + d ∧ ¬ digitChar d = '-' := by
  decide

/-- Emitted digits accumulate on the left of the accumulator. -/
theorem natCharsAux_acc (fuel : Nat) : ∀ n acc, natCharsAux fuel n acc = natCharsAux fuel n [] ++ acc := by
  induction fuel with
  | zero => intro n acc; rfl
  | succ fuel ih =>
    intro n acc
    by_cases h : n < 10
    · simp [natCharsAux, h]
    · simp only [natCharsAux, h, if_false]
      rw [ih (n / 10) (digitChar (n % 10) :: acc), ih (n / 10) [digitChar (n % 10)]]
      simp

/-- The digit emitter ignores fuel once the fuel exceeds the number. -/
theorem natCharsAux_fuel : ∀ n fuel1 fuel2 acc, n < fuel1 → n < fuel2 →
    natCharsAux fuel1 n acc = natCharsAux fuel2 n acc := by
  intro n
  induction n using Nat.strong_induction_on with
  | _ n ih =>
    intro fuel1 fuel2 acc h1 h2
    match fuel1, fuel2 with
    | f1 + 1, f2 + 1 =>
      by_cases h : n < 10
      · simp [natCharsAux, h]
      · simp only [natCharsAux, h, if_false]
        exact ih (n / 10) (Nat.div_lt_self (by omega) (by omega)) f1 f2 _
          (by omega) (by omega)

/-- A single-digit number serializes to its digit character. -/
theorem natChars_lt (n : Nat) (h : n < 10) : natChars n = [digitChar n] := by
  simp [natChars, natCharsAux, h]

/-- A multi-digit number serializes to its leading digits followed by its
last digit. -/
theorem natChars_step (n : Nat) (h : ¬ n < 10) :
    natChars n = natChars (n / 10) ++ [digitChar (n % 10)] := by
  show natCharsAux (n + 1) n [] = _
  have h1 : natCharsAux (n + 1) n [] = natCharsAux n (n / 10) [digitChar (n % 10)] := by
    simp [natCharsAux, h]
  rw [h1, natCharsAux_acc, natCharsAux_fuel (n / 10) n (n / 10 + 1) []
    (Nat.div_lt_self (by omega) (by omega)) (by omega)]
  rfl

/-- The digit run of a number starts with a digit character. -/
theorem natChars_head (n : Nat) : ∃ d t, natChars n = digitChar d :: t ∧ d < 10 := by
  induction n using Nat.strong_induction_on with
  | _ n ih =>
    by_cases h : n < 10
    · exact ⟨n, [], natChars_lt n h, h⟩
    · obtain ⟨d, t, ht, hd⟩ := ih (n / 10) (Nat.div_lt_self (by omega) (by omega))
      exact ⟨d, t ++ [digitChar (n % 10)], by rw [natChars_step n h, ht]; rfl, hd⟩

/-- A list whose head is not a decimal digit (or which is empty), so that
a digit run ending at it is parsed back exactly. -/
def noDigitHead : List Char → Bool
  | [] => true
  | c :: _ => !c.isDigit

/-- Parsing digits stops at a non-digit boundary. -/
theorem parseNat_stop (acc : Nat) (cs : List Char) (h : noDigitHead cs = true) :
    parseNat acc cs = (acc, cs) := by
  match cs with
  | [] => rfl
  | c :: cs2 =>
    have : c.isDigit = false := by simpa [noDigitHead] using h
    simp [parseNat, this]

/-- Parsing the digit run of `n` multiplies the accumulator past it and
adds `n`. -/
theorem parseNat_natChars (n : Nat) : ∀ acc cs,
    parseNat acc (natChars n ++ cs) = parseNat (acc * 10 ^ (natChars n).length + n) cs := by
  induction n using Nat.strong_induction_on with
  | _ n ih =>
    intro acc cs
    by_cases h : n < 10
    · rw [natChars_lt n h]
      obtain ⟨hdig, hval, _⟩ := digitChar_spec n h
      simp [parseNat, hdig, hval]
    · rw [natChars_step n h, List.append_assoc]
      rw [ih (n / 10) (Nat.div_lt_self (by omega) (by omega))]
      obtain ⟨hdig, hval, _⟩ := digitChar_spec (n % 10) (by omega)
      have hlen : (natChars n).length = (natChars (n / 10)).length + 1 := by
        rw [natChars_step n h]; simp
      simp only [List.cons_append, List.nil_append, parseNat, hdig, if_true, hval]
      have heq : (acc * 10 ^ (natChars (n / 10)).length + n / 10) * 10 + (48 + n % 10 - 48)
          = acc * 10 ^ (natChars n).length + n := by
        rw [hlen, pow_succ]
        have := Nat.div_add_mod n 10
        ring_nf
        omega
      rw [heq]
      have hsame : (natChars (n / 10) ++ [digitChar (n % 10)]).length = (natChars n).length := by
        rw [← natChars_step n h]
      rw [hsame]
      rfl

/-- Parsing a serialized natural number recovers it, given a non-digit
boundary. -/
theorem parseNumber_natChars (n : Nat) (cs : List Char) (h : noDigitHead cs = true) :
    parseNumber (natChars n ++ cs) = some (.num (n : Int), cs) := by
  obtain ⟨d, t, ht, hd⟩ := natChars_head n
  obtain ⟨hdig, hval, hneg⟩ := digitChar_spec d hd
  have hstep : parseNat 0 (natChars n ++ cs) = (n, cs) := by
    rw [parseNat_natChars]
    simpa using parseNat_stop n cs h
  rw [ht] at hstep ⊢
  simp only [List.cons_append, parseNumber, hneg, if_false, hdig, if_true]
  simp only [parseNat, hdig, if_true, hval, Nat.zero_mul, Nat.zero_add] at hstep
  have hsub : 48 + d - 48 = d := by omega
  rw [hsub] at hstep
  rw [List.append_eq] at hstep
  rw [hval, hsub]
  simp [hstep]

/-- Parsing a serialized integer recovers it, given a non-digit
boundary. -/
theorem parseNumber_intChars (i : Int) (cs : List Char) (h : noDigitHead cs = true) :
    parseNumber (intChars i ++ cs) = some (.num i, cs) := by
  match i with
  | .ofNat m => simpa [intChars] using parseNumber_natChars m cs h
  | .negSucc m =>
    obtain ⟨d, t, ht, hd⟩ := natChars_head (m + 1)
    obtain ⟨hdig, hval, _⟩ := digitChar_spec d hd
    have hstep : parseNat 0 (natChars (m + 1) ++ cs) = (m + 1, cs) := by
      rw [parseNat_natChars]
      simpa using parseNat_stop (m + 1) cs h
    rw [ht] at hstep
    simp only [parseNat, hdig, if_true, hval, Nat.zero_mul, Nat.zero_add] at hstep
    have hsub : 48 + d - 48 = d := by omega
    rw [hsub] at hstep
    rw [List.append_eq] at hstep
    show parseNumber ('-' :: (natChars (m + 1) ++ cs)) = _
    rw [ht]
    simp only [List.cons_append, parseNumber, if_pos rfl, hdig, if_true, hval, hsub]
    rw [hstep]
    simp [Int.negSucc_eq]

/-- Reading back a hex digit recovers its value. -/
theorem hexVal_hexDigit : ∀ k, k < 16 → hexVal (hexDigit k) = some k := by decide

/-- Parsing an escaped string body through the closing quote recovers the
original characters. -/
theorem parseStrChars_esc : ∀ (l cs : List Char),
    parseStrChars (escChars l ++ '"' :: cs) = some (l, cs) := by
  intro l
  induction l with
  | nil =>
    intro cs
    show parseStrChars ('"' :: cs) = some ([], cs)
    rw [parseStrChars.eq_def]
    simp +decide
  | cons c l ih =>
    intro cs
    have hstep : escChars (c :: l) = escChar c ++ escChars l := by
      simp [escChars]
    rw [hstep, List.append_assoc]
    by_cases h1 : c = '"'
    · subst h1
      rw [show escChar '"' = ['\\', '"'] from rfl]
      rw [parseStrChars.eq_def]
      simp +decide [ih]
    · by_cases h2 : c = '\\'
      · subst h2
        rw [show escChar '\\' = ['\\', '\\'] from rfl]
        rw [parseStrChars.eq_def]
        simp +decide [ih]
      · by_cases h3 : c = '\n'
        · subst h3
          rw [show escChar '\n' = ['\\', 'n'] from rfl]
          rw [parseStrChars.eq_def]
          simp +decide [ih]
        · by_cases h4 : c = '\r'
          · subst h4
            rw [show escChar '\r' = ['\\', 'r'] from rfl]
            rw [parseStrChars.eq_def]
            simp +decide [ih]
          · by_cases h5 : c = '\t'
            · subst h5
              rw [show escChar '\t' = ['\\', 't'] from rfl]
              rw [parseStrChars.eq_def]
              simp +decide [ih]
            · by_cases h6 : c = '\x08'
              · subst h6
                rw [show escChar '\x08' = ['\\', 'b'] from rfl]
                rw [parseStrChars.eq_def]
                simp +decide [ih]
              · by_cases h7 : c = '\x0c'
                · subst h7
                  rw [show escChar '\x0c' = ['\\', 'f'] from rfl]
                  rw [parseStrChars.eq_def]
                  simp +decide [ih]
                · by_cases h8 : c.toNat < 32
                  · have e1 : hexVal (hexDigit (c.toNat / 16)) = some (c.toNat / 16) :=
                      hexVal_hexDigit _ (by omega)
                    have e2 : hexVal (hexDigit (c.toNat % 16)) = some (c.toNat % 16) :=
                      hexVal_hexDigit _ (by omega)
                    have hv : c.toNat / 16 * 16 + c.toNat % 16 = c.toNat := by omega
                    have e0 : hexVal '0' = some 0 := by decide
                    have hesc : escChar c
                        = ['\\', 'u', '0', '0', hexDigit (c.toNat / 16), hexDigit (c.toNat % 16)] := by
                      simp [escChar, h1, h2, h3, h4, h5, h6, h7, h8]
                    rw [hesc]
                    rw [parseStrChars.eq_def]
                    simp +decide [e0, e1, e2, hv, Char.ofNat_toNat, ih]
                  · have hesc : escChar c = [c] := by
                      simp [escChar, h1, h2, h3, h4, h5, h6, h7, h8]
                    rw [hesc]
                    rw [parseStrChars.eq_def]
                    simp +decide [h1, h2, ih]

/-- Characters that can begin the serialization of a JSON value. -/
def valueStart (c : Char) : Bool :=
  c = 'n' || c = 't' || c = 'f' || c = '"' || c = '[' || c = '{' || c = '-' || c.isDigit

/-- Every serialized value is non-empty and starts with a value-start
character. -/
theorem serV_head (j : Json) : ∃ c t, serV j = c :: t ∧ valueStart c = true := by
  match j with
  | .null => exact ⟨'n', _, rfl, by decide⟩
  | .bool true => exact ⟨'t', _, rfl, by decide⟩
  | .bool false => exact ⟨'f', _, rfl, by decide⟩
  | .num (.ofNat m) =>
    obtain ⟨d, t, ht, hd⟩ := natChars_head m
    obtain ⟨hdig, -, -⟩ := digitChar_spec d hd
    exact ⟨digitChar d, t, ht, by simp [valueStart, hdig]⟩
  | .num (.negSucc m) => exact ⟨'-', _, rfl, by decide⟩
  | .str s => exact ⟨'"', _, rfl, by decide⟩
  | .arr xs => exact ⟨'[', _, rfl, by decide⟩
  | .obj fs => exact ⟨'{', _, rfl, by decide⟩

/-- A value-start character is not a closing bracket. -/
theorem valueStart_ne_rb (c : Char) (h : valueStart c = true) : ¬ c = ']' := by
  intro hc; subst hc; exact absurd h (by decide)

/-- A value-start character is not a closing brace. -/
theorem valueStart_ne_rc (c : Char) (h : valueStart c = true) : ¬ c = '}' := by
  intro hc; subst hc; exact absurd h (by decide)

/-- Unfolding: the parser on a null literal. -/
theorem parseValue_null (fuel : Nat) (cs : List Char) :
    parseValue (fuel + 1) ('n' :: 'u' :: 'l' :: 'l' :: cs) = some (.null, cs) := by
  simp only [parseValue]; simp +decide

/-- Unfolding: the parser on a true literal. -/
theorem parseValue_true (fuel : Nat) (cs : List Char) :
    parseValue (fuel + 1) ('t' :: 'r' :: 'u' :: 'e' :: cs) = some (.bool true, cs) := by
  simp only [parseValue]; simp +decide

/-- Unfolding: the parser on a false literal. -/
theorem parseValue_false (fuel : Nat) (cs : List Char) :
    parseValue (fuel + 1) ('f' :: 'a' :: 'l' :: 's' :: 'e' :: cs) = some (.bool false, cs) := by
  simp only [parseValue]; simp +decide

/-- Unfolding: the parser on a string literal. -/
theorem parseValue_str (fuel : Nat) (cs : List Char) :
    parseValue (fuel + 1) ('"' :: cs)
      = (parseStrChars cs).map (fun p => (.str ⟨p.1⟩, p.2)) := by
  simp only [parseValue]; simp +decide

/-- Unfolding: the parser on an opening bracket. -/
theorem parseValue_arr (fuel : Nat) (c2 : Char) (cs2 : List Char) :
    parseValue (fuel + 1) ('[' :: c2 :: cs2)
      = if c2 = ']' then some (.arr .nil, cs2)
        else (parseElems fuel (c2 :: cs2)).map (fun p => (.arr p.1, p.2)) := by
  simp only [parseValue]; simp +decide

/-- Unfolding: the parser on an opening brace. -/
theorem parseValue_obj (fuel : Nat) (c2 : Char) (cs2 : List Char) :
    parseValue (fuel + 1) ('{' :: c2 :: cs2)
      = if c2 = '}' then some (.obj .nil, cs2)
        else (parseFields fuel (c2 :: cs2)).map (fun p => (.obj p.1, p.2)) := by
  simp only [parseValue]; simp +decide

/-- Unfolding: the parser falls through to number parsing on any other
head character. -/
theorem parseValue_default (fuel : Nat) (c : Char) (cs : List Char)
    (h1 : ¬ c = 'n') (h2 : ¬ c = 't') (h3 : ¬ c = 'f') (h4 : ¬ c = '"')
    (h5 : ¬ c = '[') (h6 : ¬ c = '{') :
    parseValue (fuel + 1) (c :: cs) = parseNumber (c :: cs) := by
  simp only [parseValue]; simp [h1, h2, h3, h4, h5, h6]

/-- Digit characters are distinct from all parser dispatch characters. -/
theorem digitChar_ne : ∀ d, d < 10 →
    ¬ digitChar d = 'n' ∧ ¬ digitChar d = 't' ∧ ¬ digitChar d = 'f' ∧
    ¬ digitChar d = '"' ∧ ¬ digitChar d = '[' ∧ ¬ digitChar d = '{' := by
  decide

/-- Every serialized value has at least one character. -/
theorem serV_len_pos (j : Json) : 1 ≤ (serV j).length := by
  obtain ⟨c, t, h, -⟩ := serV_head j
  rw [h]; simp

/-- Fuel-indexed roundtrip: with fuel at least the serialized length,
parsing a serialized value (or serialized array elements, or serialized
object members) recovers it exactly and leaves the given suffix. -/
theorem parse_ser_fuel : ∀ fuel : Nat,
    (∀ (j : Json) (cs : List Char), (serV j).length ≤ fuel → noDigitHead cs = true →
        parseValue fuel (serV j ++ cs) = some (j, cs)) ∧
    (∀ (x : Json) (tl : JsonList) (cs : List Char),
        (serL (.cons x tl)).length + 1 ≤ fuel →
        parseElems fuel (serL (.cons x tl) ++ ']' :: cs) = some (.cons x tl, cs)) ∧
    (∀ (k : String) (v : Json) (tl : JsonFields) (cs : List Char),
        (serF (.cons k v tl)).length + 1 ≤ fuel →
        parseFields fuel (serF (.cons k v tl) ++ '}' :: cs) = some (.cons k v tl, cs)) := by
  intro fuel
  induction fuel with
  | zero =>
    refine ⟨?_, ?_, ?_⟩
    · intro j cs hlen _
      have := serV_len_pos j
      omega
    · intro x tl cs hlen
      omega
    · intro k v tl cs hlen
      omega
  | succ fuel ih =>
    obtain ⟨ihV, ihL, ihF⟩ := ih
    refine ⟨?_, ?_, ?_⟩
    · intro j cs hlen hnd
      match j with
      | .null =>
        simp only [serV]
        simpa using parseValue_null fuel cs
      | .bool true =>
        simp only [serV]
        simpa using parseValue_true fuel cs
      | .bool false =>
        simp only [serV]
        simpa using parseValue_false fuel cs
      | .num (.ofNat m) =>
        simp only [serV, intChars]
        obtain ⟨d, t, ht, hdlt⟩ := natChars_head m
        obtain ⟨hne1, hne2, hne3, hne4, hne5, hne6⟩ := digitChar_ne d hdlt
        rw [ht, List.cons_append,
          parseValue_default fuel _ _ hne1 hne2 hne3 hne4 hne5 hne6,
          ← List.cons_append, ← ht]
        simpa using parseNumber_natChars m cs hnd
      | .num (.negSucc m) =>
        simp only [serV, intChars]
        rw [List.cons_append,
          parseValue_default fuel _ _ (by decide) (by decide) (by decide)
            (by decide) (by decide) (by decide)]
        simpa [intChars] using parseNumber_intChars (Int.negSucc m) cs hnd
      | .str s =>
        simp only [serV, strChars]
        rw [List.cons_append, parseValue_str fuel, List.append_assoc,
          List.singleton_append, parseStrChars_esc s.data cs]
        rfl
      | .arr .nil =>
        simp only [serV, serL]
        rw [show ('[' :: ([] ++ [']']) : List Char) ++ cs = '[' :: ']' :: cs by simp]
        rw [parseValue_arr fuel]
        simp
      | .arr (.cons x tl) =>
        obtain ⟨c0, t0, hc0, hvs⟩ := serV_head x
        have hL : serL (.cons x tl) = c0 :: (t0 ++ serLTail tl) := by
          simp only [serL]; rw [hc0]; simp
        have hlen2 : (serL (.cons x tl)).length + 1 ≤ fuel := by
          simp only [serV] at hlen
          simp only [List.length_cons, List.length_append] at hlen
          omega
        simp only [serV]
        rw [hL]
        rw [show ('[' :: ((c0 :: (t0 ++ serLTail tl)) ++ [']']) ++ cs : List Char)
              = '[' :: c0 :: ((t0 ++ serLTail tl) ++ ']' :: cs) by simp]
        rw [parseValue_arr fuel, if_neg (valueStart_ne_rb c0 hvs)]
        rw [show (c0 :: ((t0 ++ serLTail tl) ++ ']' :: cs) : List Char)
              = serL (.cons x tl) ++ ']' :: cs by rw [hL]; simp]
        rw [ihL x tl cs hlen2]
        rfl
      | .obj .nil =>
        simp only [serV, serF]
        rw [show ('{' :: ([] ++ ['}']) : List Char) ++ cs = '{' :: '}' :: cs by simp]
        rw [parseValue_obj fuel]
        simp
      | .obj (.cons k v tl) =>
        have hlen2 : (serF (.cons k v tl)).length + 1 ≤ fuel := by
          simp only [serV] at hlen
          simp only [List.length_cons, List.length_append] at hlen
          omega
        simp only [serV]
        rw [show ('{' :: (serF (.cons k v tl) ++ ['}']) ++ cs : List Char)
              = '{' :: (serF (.cons k v tl) ++ '}' :: cs) by simp]
        have hF : serF (.cons k v tl) ++ '}' :: cs
            = '"' :: ((escChars k.data ++ ['"']) ++ (':' :: (serV v ++ serFTail tl)) ++ '}' :: cs) := by
          simp only [serF, strChars]; simp
        rw [hF]
        rw [parseValue_obj fuel, if_neg (by decide)]
        rw [show ('"' :: ((escChars k.data ++ ['"']) ++ (':' :: (serV v ++ serFTail tl)) ++ '}' :: cs) : List Char)
              = serF (.cons k v tl) ++ '}' :: cs from hF.symm]
        rw [ihF k v tl cs hlen2]
        rfl
    · intro x tl cs hlen
      have hx := serV_len_pos x
      have hv : parseValue fuel (serV x ++ (serLTail tl ++ ']' :: cs)) = some (x, serLTail tl ++ ']' :: cs) := by
        apply ihV
        · simp only [serL, List.length_append] at hlen
          omega
        · match tl with
          | .nil => simp +decide [serLTail, noDigitHead]
          | .cons y tl2 => simp +decide [serLTail, noDigitHead]
      simp only [parseElems]
      rw [show (serL (.cons x tl) ++ ']' :: cs : List Char) = serV x ++ (serLTail tl ++ ']' :: cs) by
        simp only [serL]; simp]
      rw [hv]
      match tl with
      | .nil =>
        simp [serLTail]
      | .cons y tl2 =>
        have hlen2 : (serL (.cons y tl2)).length + 1 ≤ fuel := by
          simp only [serL, serLTail, List.length_append, List.length_cons] at hlen ⊢
          omega
        rw [show (serLTail (.cons y tl2) ++ ']' :: cs : List Char)
              = ',' :: (serL (.cons y tl2) ++ ']' :: cs) by simp only [serLTail, serL]; simp]
        simp +decide [ihL y tl2 cs hlen2]
    · intro k v tl cs hlen
      have hstrlen : (strChars k).length = (escChars k.data).length + 2 := by
        simp [strChars]
      have hv : parseValue fuel (serV v ++ (serFTail tl ++ '}' :: cs)) = some (v, serFTail tl ++ '}' :: cs) := by
        apply ihV
        · simp only [serF, List.length_append, List.length_cons] at hlen
          omega
        · match tl with
          | .nil => simp +decide [serFTail, noDigitHead]
          | .cons k2 v2 tl2 => simp +decide [serFTail, noDigitHead]
      have hF : serF (.cons k v tl) ++ '}' :: cs
          = '"' :: (escChars k.data ++ '"' :: ':' :: (serV v ++ (serFTail tl ++ '}' :: cs))) := by
        simp only [serF, strChars]; simp
      rw [hF]
      simp only [parseFields]
      rw [show (escChars k.data ++ '"' :: ':' :: (serV v ++ (serFTail tl ++ '}' :: cs)) : List Char)
            = escChars k.data ++ '"' :: (':' :: (serV v ++ (serFTail tl ++ '}' :: cs))) by simp]
      rw [parseStrChars_esc k.data]
      match tl with
      | .nil =>
        simp only [serFTail, List.nil_append] at hv
        simp +decide [serFTail, hv]
      | .cons k2 v2 tl2 =>
        have hlen2 : (serF (.cons k2 v2 tl2)).length + 1 ≤ fuel := by
          simp only [serF, serFTail, List.length_append, List.length_cons] at hlen ⊢
          omega
        have harm : serFTail (.cons k2 v2 tl2) ++ '}' :: cs
            = ',' :: (serF (.cons k2 v2 tl2) ++ '}' :: cs) := by
          simp only [serFTail, serF]; simp
        rw [harm] at hv
        rw [harm]
        simp +decide [hv, ihF k2 v2 tl2 cs hlen2]

/-- Roundtrip: parsing a serialized JSON value recovers it exactly (the
wire trip between JSON.stringify in a sender and JSON.parse in the
receiving message handler is lossless on the modelled domain). -/
theorem parse_serialize (j : Json) : Json.parse (Json.serialize j) = some j := by
  have h := (parse_ser_fuel (serV j).length).1 j [] le_rfl (by decide)
  rw [List.append_nil] at h
  simp only [Json.parse, Json.serialize]
  rw [h]

/-- First-found lookup of an object member by key (JavaScript property
access on objects built by JSON.parse, whose keys are unique). -/
def lookupF : JsonFields → String → Option Json
  | .nil, _ => none
  | .cons k v tl, key => if k = key then some v else lookupF tl key

/-- Modelled from the spec: the id field restriction of the message
schema in src/src/types.ts, which is not present under src.  Per the spec
(section 4.3), an id is restricted to string, number, or absent. -/
def idOk : Option Json → Bool
  | none => true
  | some (.str _) => true
  | some (.num _) => true
  | some _ => false

/-- Modelled from the spec: a response id (sections 3 and 4.3): present,
and a string or a number. -/
def idPresent : Option Json → Bool
  | some (.str _) => true
  | some (.num _) => true
  | _ => false

/-- Modelled from the spec: the error-object shape of the message schema
(section 4.3): a numeric `code` and a string `message` are required. -/
def errShape : Json → Bool
  | .obj efs =>
    (match lookupF efs "code" with
     | some (.num _) => true
     | _ => false) &&
    (match lookupF efs "message" with
     | some (.str _) => true
     | _ => false)
  | _ => false

/-- Modelled from the spec: the JSON-RPC message schema
(JSONRPCMessageSchema of src/src/types.ts, which is not present under
src).  Per spec sections 3 and 4.3: the envelope is an object whose
`jsonrpc` field equals the literal version string "2.0"; exactly one of
`method` (request or notification, with a string method name and an
optional string-or-number id), `result` (success response, id required),
or `error` (error response, error object with numeric code and string
message, id required) is present.  The validator rejects any other
shape and never coerces. -/
def isValidMessage : Json → Bool
  | .obj fs =>
    (match lookupF fs "jsonrpc" with
     | some (.str v) => v = "2.0"
     | _ => false) &&
    (match lookupF fs "method", lookupF fs "result", lookupF fs "error" with
     | some (.str _), none, none => idOk (lookupF fs "id")
     | none, some _, none => idPresent (lookupF fs "id")
     | none, none, some e => errShape e && idPresent (lookupF fs "id")
     | _, _, _ => false)
  | _ => false

/-- Split a character list at the first occurrence of a separator: the
part before it, and the remainder starting at the separator. -/
def breakAt (sep : Char) : List Char → List Char × List Char
  | [] => ([], [])
  | c :: cs =>
    if c = sep then ([], c :: cs)
    else
      let p := breakAt sep cs
      (c :: p.1, p.2)

/-- A parsed URL, as far as the transport observes one: scheme, host,
port (empty when defaulted), and the combined path-plus-query.  Models
the platform URL class for the http and https forms the transport
meets. -/
structure UrlModel where
  scheme : String
  host : String
  port : String
  pathq : String
deriving DecidableEq

/-- The origin of a URL: scheme, host and (non-default) port, the triple
the client compares during handshake validation. -/
def UrlModel.origin (u : UrlModel) : String :=
  u.scheme ++ "://" ++ u.host ++ (if u.port = "" then "" else ":" ++ u.port)

/-- Parse the part of an absolute http or https URL after the scheme
separator: authority (host, optional port) then path; an empty authority
is invalid.  Default ports are normalized away as the platform does. -/
def parseAbs (scheme : String) (rest : List Char) : Option UrlModel :=
  let p := breakAt '/' rest
  if p.1.isEmpty then none
  else
    let hp := breakAt ':' p.1
    let port : String :=
      match hp.2 with
      | _ :: ps => ⟨ps⟩
      | [] => ""
    let port :=
      if scheme = "http" && port = "80" then ""
      else if scheme = "https" && port = "443" then ""
      else port
    some { scheme := scheme
           host := ⟨hp.1⟩
           port := port
           pathq := if p.2.isEmpty then "/" else ⟨p.2⟩ }

/-- The directory part of a path: everything up to and including the
last slash. -/
def pathDir (p : String) : String :=
  ⟨(p.data.reverse.dropWhile (fun c => !(c = '/'))).reverse⟩

/-- Resolution of the handshake payload against the connection URL
(the platform `new URL(data, base)`): absolute http or https addresses
stand alone, a leading slash is root-relative, anything else is resolved
against the directory of the base path. -/
def resolveUrl (data : String) (base : UrlModel) : Option UrlModel :=
  let cs := data.data
  if ("http://".data).isPrefixOf cs then
    parseAbs "http" (cs.drop 7)
  else if ("https://".data).isPrefixOf cs then
    parseAbs "https" (cs.drop 8)
  else
    match cs with
    | [] => some base
    | '/' :: _ => some { base with pathq := data }
    | _ => some { base with pathq := pathDir base.pathq ++ data }

/-- Errors carried to callbacks and thrown to callers, identified by
their message text. -/
structure Err where
  msg : String
deriving DecidableEq

/-- Observable effects of a transport operation, in execution order:
promise settlement, callback invocations, HTTP response writes, and
stream-level actions. -/
inductive Ev where
  | resolveCall : Ev
  | rejectCall (e : Err) : Ev
  | onerrorCall (e : Err) : Ev
  | oncloseCall : Ev
  | onmessageCall (m : Json) : Ev
  | wroteHead (status : Nat) : Ev
  | wroteBody (s : String) : Ev
  | streamWrite (s : String) : Ev
  | streamEnd : Ev
  | esClose : Ev
  | abortCall : Ev
  | fetchCall (u : UrlModel) (body : String) : Ev

/-- Whether an event is an onmessage callback invocation. -/
def Ev.isOnmessage : Ev → Bool
  | .onmessageCall _ => true
  | _ => false

/-- Whether an event is an onerror callback invocation. -/
def Ev.isOnerror : Ev → Bool
  | .onerrorCall _ => true
  | _ => false

/-- Whether an event is an onclose callback invocation. -/
def Ev.isOnclose : Ev → Bool
  | .oncloseCall => true
  | _ => false

/-- Number of onclose invocations in a trace. -/
def countOnclose (evs : List Ev) : Nat := (evs.filter Ev.isOnclose).length


/-- The error thrown by a second client start() (client-sse.ts:56). -/
def clientAlreadyStartedErr : Err := ⟨"SSE client already started!"⟩

/-- The error thrown by a second server start() (server-sse.ts:36). -/
def serverAlreadyStartedErr : Err := ⟨"SSE server already started!"⟩

/-- The error thrown by send() without a connection (client-sse.ts:115,
server-sse.ts:116). -/
def notConnectedErr : Err := ⟨"Not connected"⟩

/-- The endpoint-origin-mismatch error (client-sse.ts:77). -/
def originMismatchErr (origin : String) : Err :=
  ⟨"Endpoint origin does not match connection origin: " ++ origin⟩

/-- Modelled platform error: the TypeError thrown by URL construction on
an unparsable address. -/
def urlErr : Err := ⟨"Invalid URL"⟩

/-- Modelled platform error: the abort error a fetch with an aborted
signal rejects with. -/
def abortErr : Err := ⟨"This operation was aborted"⟩

/-- Modelled platform error: the syntax error thrown by JSON.parse. -/
def jsonParseErr : Err := ⟨"SyntaxError: Unexpected token in JSON"⟩

/-- Modelled from the spec: the structural-validation error produced by
the message schema of src/src/types.ts (not present under src). -/
def schemaErr : Err := ⟨"Invalid JSON-RPC message"⟩

/-- The error a client send() throws on a non-success HTTP status
(client-sse.ts:137), carrying the best-effort-read response body
(null when the body read failed). -/
def postErr (status : Nat) (bodyText : Option String) : Err :=
  ⟨"Error POSTing to endpoint (HTTP " ++ (⟨natChars status⟩ : String) ++ "): "
    ++ (match bodyText with | some t => t | none => "null")⟩

/-- Client transport state (the fields of class SseClient): the
connection URL, whether _eventSource is set, the retained _endpoint
reply address, and whether _abortController exists and has fired. -/
structure SseClient where
  url : UrlModel
  eventSource : Bool
  endpoint : Option UrlModel
  hasAbort : Bool
  aborted : Bool
deriving DecidableEq

/-- A freshly constructed client (constructor of SseClient):
no stream, no endpoint, no abort controller. -/
def SseClient.mk0 (url : UrlModel) : SseClient :=
  { url := url, eventSource := false, endpoint := none, hasAbort := false, aborted := false }

/-- SseClient.start, up to its guard and resource creation
(client-sse.ts:55-64): a second start fails with "already started";
otherwise the EventSource and AbortController are created.  The
handshake outcome is delivered by the endpoint listener, modelled
separately as SseClient.endpointEvent. -/
def SseClient.start (c : SseClient) : Except Err SseClient × List Ev :=
  if c.eventSource then (.error clientAlreadyStartedErr, [])
  else (.ok { c with eventSource := true, hasAbort := true, aborted := false }, [])

/-- SseClient.close (client-sse.ts:108-112): abort the controller if one
exists, close the EventSource if one exists, and invoke onclose.  The
_eventSource and _endpoint fields are not cleared. -/
def SseClient.close (c : SseClient) : SseClient × List Ev :=
  ({ c with aborted := c.aborted || c.hasAbort },
   (if c.hasAbort then [Ev.abortCall] else [])
     ++ (if c.eventSource then [Ev.esClose] else [])
     ++ [Ev.oncloseCall])

/-- The endpoint handshake listener (client-sse.ts:73-91): resolve the
event payload against the connection URL and store it in _endpoint, then
check the origin; on a resolution failure or an origin mismatch, reject
the start promise, invoke onerror, and close.  The assignment to
_endpoint happens before the origin check, and nothing clears it
afterwards. -/
def SseClient.endpointEvent (c : SseClient) (data : String) : SseClient × List Ev :=
  match resolveUrl data c.url with
  | none =>
    let p := SseClient.close c
    (p.1, [Ev.rejectCall urlErr, Ev.onerrorCall urlErr] ++ p.2)
  | some u =>
    let c1 := { c with endpoint := some u }
    if u.origin = c.url.origin then
      (c1, [Ev.resolveCall])
    else
      let e := originMismatchErr u.origin
      let p := SseClient.close c1
      (p.1, [Ev.rejectCall e, Ev.onerrorCall e] ++ p.2)

/-- The pushed-message listener (client-sse.ts:93-104): parse the event
payload as JSON and validate it against the message schema; on either
failure invoke onerror and stop, otherwise invoke onmessage. -/
def SseClient.messageEvent (data : String) : List Ev :=
  match Json.parse data with
  | none => [Ev.onerrorCall jsonParseErr]
  | some j =>
    if isValidMessage j then [Ev.onmessageCall j]
    else [Ev.onerrorCall schemaErr]

/-- The network outcome of one POST issued by client send(): an HTTP
response with a status and a best-effort-read body text, or a network
failure. -/
inductive FetchOutcome where
  | resp (status : Nat) (bodyText : Option String) : FetchOutcome
  | networkFail (e : Err) : FetchOutcome

/-- The platform response.ok predicate: status in the 2xx range. -/
def respOk (status : Nat) : Bool := 200 ≤ status && status < 300

/-- SseClient.send (client-sse.ts:114-141): without a stored endpoint it
throws "Not connected" (outside the try, so without onerror); otherwise
the POST is issued with the shared abort signal (an already aborted
signal rejects the fetch), a non-2xx status becomes a postErr carrying
the body text, and any failure in the try block is both passed to
onerror and rethrown to the caller. -/
def SseClient.send (c : SseClient) (m : Json) (net : FetchOutcome) : Except Err Unit × List Ev :=
  match c.endpoint with
  | none => (.error notConnectedErr, [])
  | some u =>
    let r : Except Err Unit :=
      if c.aborted then .error abortErr
      else
        match net with
        | .resp status bodyText =>
          if respOk status then .ok () else .error (postErr status bodyText)
        | .networkFail e => .error e
    match r with
    | .ok _ => (.ok (), [Ev.fetchCall u (Json.serialize m)])
    | .error e => (.error e, [Ev.fetchCall u (Json.serialize m), Ev.onerrorCall e])

/-- Decide whether a content-type header includes the JSON media type
(the `includes` check of server-sse.ts:78-80; an absent header fails). -/
def containsSub : List Char → List Char → Bool
  | [], needle => needle.isEmpty
  | c :: t, needle => needle.isPrefixOf (c :: t) || containsSub t needle

/-- The content-type guard of handlePostMessage: header present and
containing "application/json". -/
def contentTypeOk (ct : Option String) : Bool :=
  match ct with
  | none => false
  | some s => containsSub s.data ("application/json".data)

/-- The content-type error (server-sse.ts:79). -/
def ctErr (ct : Option String) : Err :=
  ⟨"Unsupported content-type: " ++ (match ct with | some t => t | none => "undefined")⟩

/-- The error thrown when a POST arrives before the stream is
established (server-sse.ts:66-69). -/
def streamNotEstErr : Err := ⟨"SSE connection not established"⟩

/-- Modelled application error: a throw from the application onmessage
callback. -/
def onmessageCbErr : Err := ⟨"onmessage callback threw"⟩

/-- Percent-encoding character set of the platform encodeURI: ASCII
letters, digits, and the unescaped punctuation set. -/
def isURIUnescaped (c : Char) : Bool :=
  c.isAlpha || c.isDigit ||
    ['-', '_', '.', '!', '~', '*', Char.ofNat 39, '(', ')', ';', '/', '?', ':',
     '@', '&', '=', '+', '$', ',', '#'].contains c

/-- UTF-8 bytes of a code point. -/
def utf8Bytes (n : Nat) : List Nat :=
  if n < 128 then [n]
  else if n < 2048 then [192 + n / 64, 128 + n % 64]
  else if n < 65536 then [224 + n / 4096, 128 + (n / 64) % 64, 128 + n % 64]
  else [240 + n / 262144, 128 + (n / 4096) % 64, 128 + (n / 64) % 64, 128 + n % 64]

/-- Upper-case hexadecimal digit character. -/
def hexDigitU (d : Nat) : Char := if d < 10 then digitChar d else Char.ofNat (55 + d)

/-- The platform encodeURI applied to the endpoint path
(server-sse.ts:46): unescaped characters pass through, everything else
is percent-encoded byte-wise. -/
def encodeURI (s : String) : String :=
  ⟨s.data.flatMap (fun c =>
    if isURIUnescaped c then [c]
    else (utf8Bytes c.toNat).flatMap (fun b => ['%', hexDigitU (b / 16), hexDigitU (b % 16)]))⟩

/-- Server transport state (the fields of class SseServer, plus the
observable state of its one ServerResponse): the POST endpoint path
given to the constructor, the minted session identifier, whether
_sseResponse currently holds the stream, and whether the response —
fixed at construction — has already sent its headers
(res.headersSent), which no later operation can undo. -/
structure SseServer where
  endpoint : String
  sessionId : String
  sseResponse : Bool
  headersSent : Bool
deriving DecidableEq

/-- Modelled platform error: ERR_HTTP_HEADERS_SENT, thrown by
res.writeHead when the response headers were already sent to the
client. -/
def headersSentErr : Err := ⟨"Cannot write headers after they are sent to the client"⟩

/-- A freshly constructed server transport (constructor of SseServer),
holding a fresh response that has not sent headers; the session
identifier is randomUUID(), modelled as a parameter. -/
def SseServer.mk0 (endpoint sessionId : String) : SseServer :=
  { endpoint := endpoint, sessionId := sessionId, sseResponse := false, headersSent := false }

/-- SseServer.start (server-sse.ts:34-54): a second start while the
stream handle is held fails with "already started".  Past that guard,
this.res.writeHead runs on the one response fixed at construction: if
that response already sent its headers (after a prior successful start,
whether or not close() cleared the handle since), writeHead throws
ERR_HTTP_HEADERS_SENT before anything is written or stored.  Otherwise
the SSE headers are written, the endpoint handshake frame is pushed
with the percent-encoded path and the sessionId query parameter, the
stream handle is stored, and the disconnect observer is registered. -/
def SseServer.start (s : SseServer) : Except Err SseServer × List Ev :=
  if s.sseResponse then (.error serverAlreadyStartedErr, [])
  else if s.headersSent then (.error headersSentErr, [])
  else
    (.ok { s with sseResponse := true, headersSent := true },
     [Ev.wroteHead 200,
      Ev.streamWrite ("event: endpoint\ndata: " ++ encodeURI s.endpoint
        ++ "?sessionId=" ++ s.sessionId ++ "\n\n")])

/-- The disconnect observer registered by start (server-sse.ts:50-53):
clear the stream handle and invoke onclose, unconditionally. -/
def SseServer.streamClosed (s : SseServer) : SseServer × List Ev :=
  ({ s with sseResponse := false }, [Ev.oncloseCall])

/-- SseServer.close (server-sse.ts:108-112): end the stream if still
held, clear the handle, and invoke onclose — the onclose invocation
itself is unconditional. -/
def SseServer.close (s : SseServer) : SseServer × List Ev :=
  ({ s with sseResponse := false },
   (if s.sseResponse then [Ev.streamEnd] else []) ++ [Ev.oncloseCall])

/-- SseServer.send (server-sse.ts:114-122): requires the stream, then
writes one framed message event containing the serialized message. -/
def SseServer.send (s : SseServer) (m : Json) : Except Err Unit × List Ev :=
  if s.sseResponse then
    (.ok (), [Ev.streamWrite ("event: message\ndata: " ++ Json.serialize m ++ "\n\n")])
  else (.error notConnectedErr, [])

/-- SseServer.handleMessage (server-sse.ts:96-106): validate against the
message schema; on failure invoke onerror and rethrow (the returned
error), otherwise invoke onmessage — whose own throw (cbThrows) escapes
uncaught. -/
def SseServer.handleMessage (j : Json) (cbThrows : Bool) : Except Err Unit × List Ev :=
  if isValidMessage j then
    ((if cbThrows then .error onmessageCbErr else .ok ()), [Ev.onmessageCall j])
  else (.error schemaErr, [Ev.onerrorCall schemaErr])

/-- The observable outcome of handlePostMessage for one POST: the value
returned or thrown to the HTTP layer, the ordered trace of response
writes and callback invocations, and whether an unawaited handleMessage
promise was left rejected. -/
structure PostResult where
  result : Except Err Unit
  events : List Ev
  rejection : Bool

/-- SseServer.handlePostMessage (server-sse.ts:60-91), including its end
handler: without the stream it writes 500 and throws; with the stream it
checks the content type, parses the body, and calls handleMessage — an
async method invoked without await, so its synchronous callback
invocations happen first, its failure only rejects the unawaited
promise, and the 202 acknowledgement is written afterwards in every
parsed case.  Content-type and JSON-parse failures are caught: 400 is
written and onerror invoked. -/
def SseServer.handlePostMessage (s : SseServer) (ct : Option String) (body : String)
    (cbThrows : Bool) : PostResult :=
  if s.sseResponse = false then
    { result := .error streamNotEstErr
      events := [Ev.wroteHead 500, Ev.wroteBody "SSE connection not established"]
      rejection := false }
  else if contentTypeOk ct = false then
    { result := .ok ()
      events := [Ev.wroteHead 400, Ev.wroteBody ("Invalid message: Error: " ++ (ctErr ct).msg),
                 Ev.onerrorCall (ctErr ct)]
      rejection := false }
  else
    match Json.parse body with
    | none =>
      { result := .ok ()
        events := [Ev.wroteHead 400, Ev.wroteBody ("Invalid message: " ++ jsonParseErr.msg),
                   Ev.onerrorCall jsonParseErr]
        rejection := false }
    | some j =>
      let hm := SseServer.handleMessage j cbThrows
      { result := .ok ()
        events := hm.2 ++ [Ev.wroteHead 202, Ev.wroteBody "Accepted"]
        rejection := match hm.1 with | .ok _ => false | .error _ => true }

deriving instance DecidableEq for Ev
deriving instance DecidableEq for Except

/-- Number of onerror invocations in a trace. -/
def countOnerror (evs : List Ev) : Nat := (evs.filter Ev.isOnerror).length

/-- The connection URL of the worked examples:
http://localhost:3000/sse. -/
def baseUrl : UrlModel := { scheme := "http", host := "localhost", port := "3000", pathq := "/sse" }

/-- The attacker-controlled reply address of the handshake security
scenario, resolved from the payload "http://evil.example/message". -/
def evilUrl : UrlModel := { scheme := "http", host := "evil.example", port := "", pathq := "/message" }

/-- A client that completed start(): EventSource and AbortController
exist, no handshake yet. -/
def startedClient : SseClient :=
  { url := baseUrl, eventSource := true, endpoint := none, hasAbort := true, aborted := false }

/-- A server transport whose stream is open (a successful start() has
run, so the response headers are sent). -/
def openServer : SseServer :=
  { endpoint := "/message", sessionId := "sid", sseResponse := true, headersSent := true }

/-- A schema-valid request message (the echo request of the test
suite). -/
def validMsg : Json :=
  .obj (.cons "jsonrpc" (.str "2.0") (.cons "id" (.num 1) (.cons "method" (.str "echo")
    (.cons "params" (.obj (.cons "data" (.str "Hello, world!") .nil)) .nil))))

/-- A JSON value that parses but violates the message schema (no
jsonrpc member). -/
def badMsg : Json := .obj (.cons "foo" (.num 1) .nil)

/-- C1: on an endpoint handshake event resolving to a different origin,
the handshake is rejected, onerror fires, and the client closes — but
the mismatched reply address IS retained in _endpoint (the assignment
precedes the origin check and is never undone), the reachable-state
invariant of the claim is violated, and a subsequent send() does not
fail with "Not connected": it passes the endpoint guard and enters the
POST path, failing only through the aborted fetch signal. -/
theorem c1_endpoint_retained_on_mismatch :
    (SseClient.endpointEvent startedClient "http://evil.example/message").2
      = [Ev.rejectCall (originMismatchErr "http://evil.example"),
         Ev.onerrorCall (originMismatchErr "http://evil.example"),
         Ev.abortCall, Ev.esClose, Ev.oncloseCall]
    ∧ (SseClient.endpointEvent startedClient "http://evil.example/message").1.endpoint
        = some evilUrl
    ∧ ¬ evilUrl.origin = startedClient.url.origin
    ∧ ¬ (SseClient.send (SseClient.endpointEvent startedClient "http://evil.example/message").1
          validMsg (.resp 200 none)).1 = .error notConnectedErr
    ∧ (SseClient.send (SseClient.endpointEvent startedClient "http://evil.example/message").1
          validMsg (.resp 200 none)).2.head? = some (Ev.fetchCall evilUrl (Json.serialize validMsg)) := by
  decide

/-- C2: a POST whose body parses as JSON but fails schema validation is
nevertheless answered 202 Accepted: handleMessage is async and called
without await, so its throw only rejects the unawaited promise; onerror
is invoked, onmessage is not, but the 400 the claim requires is never
written.  The JSON-parse-failure half of the claim does hold: a
non-JSON body is answered 400 with onerror and no 202. -/
theorem c2_validation_failure_still_accepted :
    (SseServer.handlePostMessage openServer (some "application/json")
        (Json.serialize badMsg) false).events
      = [Ev.onerrorCall schemaErr, Ev.wroteHead 202, Ev.wroteBody "Accepted"]
    ∧ (SseServer.handlePostMessage openServer (some "application/json")
        (Json.serialize badMsg) false).rejection = true
    ∧ (SseServer.handlePostMessage openServer (some "application/json")
        (Json.serialize badMsg) false).result = .ok ()
    ∧ (SseServer.handlePostMessage openServer (some "application/json") "notjson" false).events
      = [Ev.wroteHead 400, Ev.wroteBody ("Invalid message: " ++ jsonParseErr.msg),
         Ev.onerrorCall jsonParseErr] := by
  decide

/-- C3 counterexample: for a POST carrying a valid message, the first
observable event is the onmessage invocation and the 202 write follows
it — the 202 is not sent before the callback runs. -/
theorem c3_order_counterexample :
    (SseServer.handlePostMessage openServer (some "application/json")
        (Json.serialize validMsg) false).events
      = [Ev.onmessageCall validMsg, Ev.wroteHead 202, Ev.wroteBody "Accepted"]
    ∧ (SseServer.handlePostMessage openServer (some "application/json")
        (Json.serialize validMsg) false).events.head?
      = some (Ev.onmessageCall validMsg) := by
  decide

/-- C3 (amended): for every successfully parsed and validated POST body,
the onmessage callback runs synchronously inside the unawaited
handleMessage call, BEFORE the 202 is written; nevertheless a failure
thrown by the callback only rejects the unawaited promise and cannot
change the HTTP status — the 202 is written regardless. -/
theorem c3_ack_decoupled_from_callback (s : SseServer) (ct : Option String)
    (body : String) (j : Json) (cbThrows : Bool)
    (hopen : s.sseResponse = true) (hct : contentTypeOk ct = true)
    (hparse : Json.parse body = some j) (hvalid : isValidMessage j = true) :
    (SseServer.handlePostMessage s ct body cbThrows).events
      = [Ev.onmessageCall j, Ev.wroteHead 202, Ev.wroteBody "Accepted"]
    ∧ (SseServer.handlePostMessage s ct body cbThrows).rejection = cbThrows := by
  simp [SseServer.handlePostMessage, SseServer.handleMessage, hopen, hct, hparse, hvalid]
  cases cbThrows <;> simp

/-- C3 witness: the amended theorem applied to the open server and the
serialized valid message, with a throwing callback. -/
theorem c3_ack_decoupled_witness :
    (SseServer.handlePostMessage openServer (some "application/json")
        (Json.serialize validMsg) true).events
      = [Ev.onmessageCall validMsg, Ev.wroteHead 202, Ev.wroteBody "Accepted"]
    ∧ (SseServer.handlePostMessage openServer (some "application/json")
        (Json.serialize validMsg) true).rejection = true :=
  c3_ack_decoupled_from_callback openServer (some "application/json")
    (Json.serialize validMsg) validMsg true (by decide) (by decide) (by decide) (by decide)

/-- C4 counterexample: after the stream disconnect observer has fired
onclose once, an explicit close() on the resulting state fires onclose
again — the second path is not a no-op, so onclose is not invoked at
most once over the lifetime. -/
theorem c4_double_onclose_counterexample :
    countOnclose (SseServer.streamClosed openServer).2 = 1
    ∧ countOnclose (SseServer.close (SseServer.streamClosed openServer).1).2 = 1
    ∧ countOnclose ((SseServer.streamClosed openServer).2
        ++ (SseServer.close (SseServer.streamClosed openServer).1).2) = 2 := by
  decide

/-- C4 (amended): each path invokes onclose unconditionally — the
disconnect observer fires it exactly once, and close() fires it exactly
once in every state; only the stream end() inside close() is guarded by
the handle.  An interleaving of both paths therefore fires onclose
twice. -/
theorem c4_onclose_fired_per_path (s : SseServer) :
    countOnclose (SseServer.streamClosed s).2 = 1
    ∧ countOnclose (SseServer.close s).2 = 1
    ∧ (SseServer.close s).2
        = (if s.sseResponse then [Ev.streamEnd] else []) ++ [Ev.oncloseCall] := by
  refine ⟨rfl, ?_, rfl⟩
  cases h : s.sseResponse <;> simp [SseServer.close, countOnclose, h, Ev.isOnclose]

/-- C5 counterexample: on the server, a second start() after close()
does not fail with the "already started" error the claim names: close()
cleared the stream handle that the guard checks, so start() passes the
guard and instead fails when writeHead throws ERR_HTTP_HEADERS_SENT on
the response whose headers the first start() already sent; nothing is
written and the stream is not re-opened. -/
theorem c5_start_after_close_not_already_started :
    SseServer.start ((SseServer.close openServer).1) = (.error headersSentErr, [])
    ∧ ¬ (SseServer.start ((SseServer.close openServer).1)).1
      = .error serverAlreadyStartedErr
    ∧ ((SseServer.close openServer).1).sseResponse = false := by
  decide

/-- C5 (amended): start() succeeds at most once on either half, and a
second start() in any non-idle state fails without re-opening the
stream — but not always with the "already started" error.  On the
client the stream handle is never cleared (close() keeps _eventSource),
so any second start(), including after close(), fails with "already
started".  On the server the guard fires only while the handle is held;
after close() has cleared it, a second start() passes the guard and
fails instead with the platform headers-already-sent error from
writeHead on the already-used response, writing nothing and leaving the
stream closed. -/
theorem c5_start_guard (u : UrlModel) (e sid : String) :
    (SseClient.start (SseClient.mk0 u)).1
      = .ok { url := u, eventSource := true, endpoint := none, hasAbort := true, aborted := false }
    ∧ (SseClient.start { startedClient with url := u }).1 = .error clientAlreadyStartedErr
    ∧ (SseClient.start ((SseClient.close { startedClient with url := u }).1)).1
      = .error clientAlreadyStartedErr
    ∧ ((SseClient.close { startedClient with url := u }).1).eventSource = true
    ∧ (SseServer.start (SseServer.mk0 e sid)).1
      = .ok { endpoint := e, sessionId := sid, sseResponse := true, headersSent := true }
    ∧ (SseServer.start { openServer with endpoint := e, sessionId := sid }).1
      = .error serverAlreadyStartedErr
    ∧ SseServer.start ((SseServer.close { openServer with endpoint := e, sessionId := sid }).1)
      = (.error headersSentErr, [])
    ∧ ((SseServer.close { openServer with endpoint := e, sessionId := sid }).1).sseResponse
      = false := by
  refine ⟨rfl, rfl, rfl, rfl, rfl, rfl, rfl, rfl⟩

/-- C6: the onmessage callback is invoked only with schema-valid
payloads, on both halves: any payload failing validation produces
exactly one onerror invocation and no onmessage invocation in the
server handleMessage path and in the client pushed-message path;
conversely every onmessage invocation either path emits carries a
validated message. -/
theorem c6_onmessage_only_validated (j : Json) (cb : Bool) :
    (isValidMessage j = false →
      (SseServer.handleMessage j cb).2 = [Ev.onerrorCall schemaErr]
      ∧ ∀ data : String, Json.parse data = some j →
          SseClient.messageEvent data = [Ev.onerrorCall schemaErr])
    ∧ (∀ m, Ev.onmessageCall m ∈ (SseServer.handleMessage j cb).2 → isValidMessage m = true)
    ∧ (∀ (data : String) (m : Json),
        Ev.onmessageCall m ∈ SseClient.messageEvent data → isValidMessage m = true) := by
  refine ⟨?_, ?_, ?_⟩
  · intro hinv
    refine ⟨by simp [SseServer.handleMessage, hinv], ?_⟩
    intro data hparse
    simp [SseClient.messageEvent, hparse, hinv]
  · intro m hm
    by_cases hv : isValidMessage j = true
    · simp [SseServer.handleMessage, hv] at hm
      subst hm; exact hv
    · simp [SseServer.handleMessage, Bool.eq_false_iff.mpr hv] at hm
  · intro data m hm
    match hparse : Json.parse data with
    | none => simp [SseClient.messageEvent, hparse] at hm
    | some j2 =>
      by_cases hv : isValidMessage j2 = true
      · simp [SseClient.messageEvent, hparse, hv] at hm
        subst hm; exact hv
      · simp [SseClient.messageEvent, hparse, Bool.eq_false_iff.mpr hv] at hm

/-- C6 witness: the theorem applied to the schema-invalid parsed body
badMsg, whose serialized form reaches the client handler. -/
theorem c6_onmessage_only_validated_witness :
    (SseServer.handleMessage badMsg false).2 = [Ev.onerrorCall schemaErr]
    ∧ SseClient.messageEvent (Json.serialize badMsg) = [Ev.onerrorCall schemaErr] := by
  have h := (c6_onmessage_only_validated badMsg false).1 (by decide)
  exact ⟨h.1, h.2 (Json.serialize badMsg) (by decide)⟩

/-- C7 counterexample: client send() after close(), with the handshake
completed, is not a guarded state error: the retained endpoint passes
the "Not connected" check, the fetch rejects through the aborted
signal, and onerror IS invoked — contradicting the claim that
wrong-lifecycle send() failures are never routed to onerror. -/
theorem c7_send_after_close_invokes_onerror :
    (SseClient.send
        (SseClient.close { startedClient with endpoint := some baseUrl }).1
        validMsg (.resp 200 (some "ok")))
      = (.error abortErr,
         [Ev.fetchCall baseUrl (Json.serialize validMsg), Ev.onerrorCall abortErr]) := by
  decide

/-- C7 (amended): the guarded lifecycle errors — start() when already
started on either half, client send() before a handshake stored an
endpoint, server send() when the stream is not open (including after
close()) — are thrown to the caller with an empty event trace, hence
without onerror.  The one unguarded case is client send() after
close() with a retained endpoint, which reports through onerror as well
(the counterexample above). -/
theorem c7_state_errors_not_routed_to_onerror
    (c : SseClient) (s : SseServer) (m : Json) (net : FetchOutcome) :
    (c.eventSource = true → SseClient.start c = (.error clientAlreadyStartedErr, []))
    ∧ (s.sseResponse = true → SseServer.start s = (.error serverAlreadyStartedErr, []))
    ∧ (c.endpoint = none → SseClient.send c m net = (.error notConnectedErr, []))
    ∧ (s.sseResponse = false → SseServer.send s m = (.error notConnectedErr, [])) := by
  refine ⟨?_, ?_, ?_, ?_⟩
  · intro h; simp [SseClient.start, h]
  · intro h; simp [SseServer.start, h]
  · intro h; simp [SseClient.send, h]
  · intro h; simp [SseServer.send, h]

/-- C7 witness: the guards at concrete states — a started client and
server for double start, a fresh client and a closed server for
send. -/
theorem c7_state_errors_witness :
    SseClient.start startedClient = (.error clientAlreadyStartedErr, [])
    ∧ SseServer.start openServer = (.error serverAlreadyStartedErr, [])
    ∧ SseClient.send (SseClient.mk0 baseUrl) validMsg (.resp 200 none)
        = (.error notConnectedErr, [])
    ∧ SseServer.send (SseServer.close openServer).1 validMsg = (.error notConnectedErr, []) := by
  refine ⟨(c7_state_errors_not_routed_to_onerror startedClient openServer validMsg (.resp 200 none)).1 (by decide),
    (c7_state_errors_not_routed_to_onerror startedClient openServer validMsg (.resp 200 none)).2.1 (by decide),
    (c7_state_errors_not_routed_to_onerror (SseClient.mk0 baseUrl) openServer validMsg (.resp 200 none)).2.2.1 (by decide),
    (c7_state_errors_not_routed_to_onerror startedClient
      (SseServer.close openServer).1 validMsg (.resp 200 none)).2.2.2 (by decide)⟩

/-- Every list is a prefix of itself. -/
theorem isPrefixOf_self (l : List Char) : l.isPrefixOf l = true := by
  induction l with
  | nil => rfl
  | cons c t ih => simp [List.isPrefixOf, ih]

/-- A list is a substring-at-the-end witness: searching for the suffix
itself succeeds. -/
theorem containsSub_append (a b : List Char) : containsSub (a ++ b) b = true := by
  induction a with
  | nil =>
    match b with
    | [] => rfl
    | c :: t =>
      simp only [List.nil_append, containsSub, Bool.or_eq_true]
      exact Or.inl (isPrefixOf_self _)
  | cons c a ih =>
    simp only [List.cons_append, containsSub, Bool.or_eq_true]
    exact Or.inr ih

/-- C8: for every message that validates against the schema, the wire
trip taken between a sender and the receiving message handler —
JSON.stringify in send(), JSON.parse plus schema validation in the
handler — yields the identical message, and the client pushed-message
handler therefore delivers exactly that message to onmessage. -/
theorem c8_serialize_parse_roundtrip (j : Json) (h : isValidMessage j = true) :
    Json.parse (Json.serialize j) = some j
    ∧ SseClient.messageEvent (Json.serialize j) = [Ev.onmessageCall j] := by
  refine ⟨parse_serialize j, ?_⟩
  simp [SseClient.messageEvent, parse_serialize j, h]

/-- C8 witness: the roundtrip at the concrete echo request. -/
theorem c8_serialize_parse_roundtrip_witness :
    isValidMessage validMsg = true ∧ Json.parse (Json.serialize validMsg) = some validMsg :=
  ⟨by decide, (c8_serialize_parse_roundtrip validMsg (by decide)).1⟩

/-- C9: a client send() whose POST receives a non-success status fails
in both channels with the same error: the error carrying the
best-effort-read response body (the literal "null" when the read
failed) is passed to onerror and the identical error is thrown to the
caller; when a body text was read, it occurs verbatim in the error
message. -/
theorem c9_send_failure_dual_reporting (c : SseClient) (u : UrlModel) (m : Json)
    (status : Nat) (bodyText : Option String)
    (hep : c.endpoint = some u) (hab : c.aborted = false)
    (hst : respOk status = false) :
    SseClient.send c m (.resp status bodyText)
      = (.error (postErr status bodyText),
         [Ev.fetchCall u (Json.serialize m), Ev.onerrorCall (postErr status bodyText)])
    ∧ ∀ t, bodyText = some t →
        containsSub (postErr status bodyText).msg.data t.data = true := by
  constructor
  · simp [SseClient.send, hep, hab, hst]
  · intro t ht
    subst ht
    show containsSub ((("Error POSTing to endpoint (HTTP "
      ++ (⟨natChars status⟩ : String) ++ "): ") ++ t).data) t.data = true
    rw [show ((("Error POSTing to endpoint (HTTP "
      ++ (⟨natChars status⟩ : String) ++ "): ") ++ t).data)
        = ("Error POSTing to endpoint (HTTP "
      ++ (⟨natChars status⟩ : String) ++ "): ").data ++ t.data from rfl]
    exact containsSub_append _ _

/-- C9 witness: a 404 with the body "Session not found". -/
theorem c9_send_failure_dual_witness :
    SseClient.send { startedClient with endpoint := some baseUrl } validMsg
        (.resp 404 (some "Session not found"))
      = (.error (postErr 404 (some "Session not found")),
         [Ev.fetchCall baseUrl (Json.serialize validMsg),
          Ev.onerrorCall (postErr 404 (some "Session not found"))])
    ∧ containsSub (postErr 404 (some "Session not found")).msg.data
        ("Session not found".data) = true := by
  have h := c9_send_failure_dual_reporting { startedClient with endpoint := some baseUrl }
    baseUrl validMsg 404 (some "Session not found") (by decide) (by decide) (by decide)
  exact ⟨h.1, h.2 "Session not found" rfl⟩

/-- C10: close() is not guarded by lifecycle state on either half: on a
never-started transport it performs no stream action but still invokes
onclose exactly once, just as close() on any state invokes onclose
exactly once. -/
theorem c10_close_unguarded (e sid : String) (u : UrlModel)
    (c : SseClient) (s : SseServer) :
    (SseServer.close (SseServer.mk0 e sid)).2 = [Ev.oncloseCall]
    ∧ (SseClient.close (SseClient.mk0 u)).2 = [Ev.oncloseCall]
    ∧ countOnclose (SseServer.close s).2 = 1
    ∧ countOnclose (SseClient.close c).2 = 1 := by
  refine ⟨rfl, rfl, ?_, ?_⟩
  · cases h : s.sseResponse <;> simp [SseServer.close, countOnclose, h, Ev.isOnclose]
  · cases h1 : c.hasAbort <;> cases h2 : c.eventSource <;>
      simp [SseClient.close, countOnclose, h1, h2, Ev.isOnclose]
